import Mathlib

/-!
# Altaiir3LightBot: schedule extraction and status resolution

A shallow embedding of `src/main.go`.  Go `string` is `String` (texts are taken to be
valid UTF-8, on which the prefix, suffix and substring operations used here agree with
their byte-wise Go counterparts), Go `int` is `Int`, a Go `map[string]V` is an association
list read with `List.lookup` (a missing key, and every key of a nil map, gives `none`), and
a Go `(T, error)` result is `Except String T`, the string being the error text.  Calls
into libraries and services (DynamoDB, HTTP, the HTML parser, `encoding/json`, the clock)
are fields of `World`; `getElectricityData` returns, next to its result, the list of the
calls it made.
-/

namespace Altaiir

deriving instance DecidableEq for Except

/-! ## Constants (main.go 27-34) -/

def prefixToRemove : String := "\"data\":"

def suffixToRemove : String := "\x7d"

def yesMessage : String :=
  "Живлення подається. Якщо живлення відсутнє, це може означати що склалася аварійна ситуація. Інформацію уточнюйте у ДТЕК"

def noMessage : String :=
  "Живлення відсутнє. Слідкуйте за графіком на сайті ДТЕК"

def maybeMessage : String :=
  "Згідно із графіком, живлення може подаватися з вірогідністю 50/50. Слідкуйте за графіком на сайті ДТЕК"

/-! ## Data model -/

/-- A Go `map[string]V`; the nil map and the empty map are both `[]`. -/
abbrev GoMap (V : Type) : Type := List (String × V)

/-- The table `map[string]map[string]map[string]string`: group, day, hour, code. -/
abbrev ScheduleTable : Type := GoMap (GoMap (GoMap String))

/-- The function `strconv.Itoa`: the decimal text of a Go `int`. -/
def Itoa (i : Int) : String := toString i

/-! ## Time Resolver (main.go 71-79, 291-296) -/

/-- The package variable `days`: native weekday (0 = Sunday) to Monday-based index. -/
def days : List (Int × Int) :=
  [(0, 6), (1, 0), (2, 1), (3, 2), (4, 3), (5, 4), (6, 5)]

/-- Reading `days[k]`: a key that is absent reads as the zero value. -/
def daysAt (k : Int) : Int := (days.lookup k).getD 0

/-- The function `getCurrentAdjustedDayAndHour`, given what `dateTime.Weekday()` and
`dateTime.Clock()` report for the instant in the fixed zone. -/
def getCurrentAdjustedDayAndHour (weekday hour : Int) : String × String :=
  let day := daysAt weekday
  (Itoa (day + 1), Itoa (hour + 1))

/-! ## Status Resolver (main.go 260-289) -/

def errWrongGroup : String :=
  "#extractStatusByGroup: wrong group is passed. Should be from 1 inclusively to 3 inclusively"

def errNoGroup (group : Int) : String :=
  "#extractStatusByGroup: there's no schedule for group " ++ Itoa group

def errNoDay (group : Int) (day : String) : String :=
  "#extractStatusByGroup: there's no schedule for group " ++ Itoa group ++ ", day " ++ day

def errNoHour (group : Int) (day hour : String) : String :=
  "#extractStatusByGroup: there's no schedule for group " ++ Itoa group ++ ", day " ++ day
    ++ ", hour " ++ hour

/-- The function `extractStatusByGroup`; `weekday` and `hour` are the clock reading that
its call of `getCurrentAdjustedDayAndHour` sees. -/
def extractStatusByGroup (weekday hour : Int) (groupSchedule : ScheduleTable) (group : Int) :
    Except String String :=
  if group < 1 ∨ group > 3 then
    .error errWrongGroup
  else
    let dh := getCurrentAdjustedDayAndHour weekday hour
    match groupSchedule.lookup (Itoa group) with
    | none => .error (errNoGroup group)
    | some weekSchedule =>
      match weekSchedule.lookup dh.1 with
      | none => .error (errNoDay group dh.1)
      | some daySchedule =>
        match daySchedule.lookup dh.2 with
        | none => .error (errNoHour group dh.1 dh.2)
        | some status =>
          if status = "yes" then .ok yesMessage
          else if status = "no" then .ok noMessage
          else .ok maybeMessage

/-! ## Schedule Extractor (main.go 224-248) -/

/-- The raw bytes of a fetched page, Go `[]byte`. -/
abbrev Page : Type := List UInt8

/-- The function `strings.Contains` on character lists: `sub` starts at some position of
the first argument. -/
def containsL : List Char → List Char → Bool
  | [], sub => sub.isEmpty
  | c :: cs, sub => sub.isPrefixOf (c :: cs) || containsL cs sub

/-- The function `strings.Contains`. -/
def Contains (s substr : String) : Bool := containsL s.data substr.data

/-- The function `strings.TrimPrefix`: drop `pre` once when `s` starts with it. -/
def TrimPrefix (s pre : String) : String :=
  if pre.data.isPrefixOf s.data then ⟨s.data.drop pre.data.length⟩ else s

/-- The function `strings.TrimSuffix`: drop `suf` once when `s` ends with it. -/
def TrimSuffix (s suf : String) : String :=
  if suf.data.isSuffixOf s.data then ⟨s.data.take (s.data.length - suf.data.length)⟩ else s

/-- The constant `schedulePattern`: the literal `"data":{` and then `.*`, any run of
characters other than newline. -/
def schedulePattern : String := "\"data\":\x7b.*"

/-- The literal the pattern starts with. -/
def patternLiteral : List Char := "\"data\":\x7b".data

/-- The leftmost match of `schedulePattern` in a character list: from the first place the
literal occurs, the literal and then the longest run of non-newline characters; `[]` when
the literal occurs nowhere. -/
def findStringL : List Char → List Char
  | [] => []
  | c :: cs =>
    if patternLiteral.isPrefixOf (c :: cs) then
      patternLiteral ++ (((c :: cs).drop patternLiteral.length).takeWhile (fun x => x != '\n'))
    else findStringL cs

/-- The call `regexp.MustCompile(schedulePattern).FindString(s)`: the text of the leftmost
match, `""` when there is none. -/
def FindString (s : String) : String := ⟨findStringL s.data⟩

/-- Lines 243-246: match the pattern in the carrier script, then strip the key literal
and one closing brace. -/
def matchAndStrip (scheduleString : String) : String :=
  TrimSuffix (TrimPrefix (FindString scheduleString) prefixToRemove) suffixToRemove

/-- Lines 233-239: the loop over the script elements in document order; every script whose
text contains the marker overwrites `scheduleString`. -/
def scanScripts (scripts : List String) : String :=
  scripts.foldl (fun scheduleString cont =>
    if Contains cont "DisconSchedule" then cont else scheduleString) ""

def errPageEmpty : String := "#extractScheduleString: page is absent or empty"

def errNoSchedule : String := "#extractScheduleString: there's no schedule on the page"

/-- The function `extractScheduleString`.  `newDocument` stands for
`goquery.NewDocumentFromReader` followed by `Find("script")` and `Text()`: it fails, or
gives the texts of the script elements in document order. -/
def extractScheduleString (newDocument : Page → Except String (List String)) (page : Page) :
    Except String String :=
  if page.length = 0 then .error errPageEmpty
  else
    match newDocument page with
    | .error err => .error err
    | .ok scripts =>
      let scheduleString := scanScripts scripts
      if scheduleString = "" then .error errNoSchedule
      else .ok (matchAndStrip scheduleString)

/-! ## Storage records and the outside world -/

/-- The struct `Option` of main.go 36-39 (renamed: `Option` is taken in Lean). -/
structure OptionRecord where
  OptionId : String
  OptionValue : String
deriving DecidableEq, Repr

/-- A DynamoDB item, `map[string]*dynamodb.AttributeValue`, by attribute name. -/
abbrev Item : Type := List (String × String)

/-- What `svc.GetItem` hands back: the output's `Item` (`none` for nil) and the error. -/
structure GetItemOutput where
  Item : Option Item
  err : Option String

/-- The collaborators outside the repository, one field per library call of main.go.
A Go `error` result is `Option String`, `none` being nil. -/
structure World where
  /-- The call `svc.GetItem` for the key attribute `OptionId`. -/
  getItem : String → GetItemOutput
  /-- The call `dynamodbattribute.UnmarshalMap` into an `Option`. -/
  unmarshalMap : Item → Except String OptionRecord
  /-- The call `dynamodbattribute.MarshalMap`. -/
  marshalMap : OptionRecord → Except String Item
  /-- The call `svc.PutItem`. -/
  putItem : Item → Option String
  /-- The call `svc.UpdateItem` with the key `id` and the new `optionValue`. -/
  updateItem : String → String → Option String
  /-- The call `http.Get` of the given URL, giving the response body. -/
  httpGet : String → Except String Page
  /-- The call `io.ReadAll` on the response body. -/
  readAll : Page → Except String Page
  /-- The HTML parse and script selection, see `extractScheduleString`. -/
  newDocument : Page → Except String (List String)
  /-- The call `json.Unmarshal` into the three-level map. -/
  jsonUnmarshal : String → Except String ScheduleTable
  /-- The value `int(dateTime.Weekday())` of the current instant in `uaLocation`. -/
  weekday : Int
  /-- The clock hour of the current instant in `uaLocation`. -/
  hour : Int

def errItemNil : String := "#getOption: fetched item is nil"

/-- The function `getOption` (main.go 308-337).  The error of `GetItem` is never looked
at (the SDK always hands back an output struct, whose `Item` is nil on failure); an item
that does not unmarshal gives the zero `Option` with a nil error. -/
def getOption (w : World) (optionId : String) : Except String OptionRecord :=
  let result := w.getItem optionId
  match result.Item with
  | none => .error errItemNil
  | some item =>
    match w.unmarshalMap item with
    | .error _ => .ok ⟨"", ""⟩
    | .ok option => .ok option

/-- The function `saveOption` (main.go 339-363): a marshalling error is only logged, the
put goes ahead with what `MarshalMap` returned (the empty item). -/
def saveOption (w : World) (option : OptionRecord) : Option String :=
  let marshalledOption : Item :=
    match w.marshalMap option with
    | .error _ => []
    | .ok item => item
  w.putItem marshalledOption

/-- The function `updateOption` (main.go 365-394). -/
def updateOption (w : World) (option : OptionRecord) : Option String :=
  w.updateItem option.OptionId option.OptionValue

/-- The function `fetchSchedulePage` (main.go 210-222). -/
def fetchSchedulePage (w : World) : Except String Page :=
  match w.httpGet "https://www.dtek-oem.com.ua/ua/shutdowns" with
  | .error err => .error err
  | .ok body =>
    match w.readAll body with
    | .error err => .error err
    | .ok page => .ok page

/-- The function `extractSchedule` (main.go 250-258). -/
def extractSchedule (w : World) (scheduleString : String) : Except String ScheduleTable :=
  match w.jsonUnmarshal scheduleString with
  | .error err => .error err
  | .ok groupSchedule => .ok groupSchedule

/-! ## Schedule Cache (main.go 159-208) -/

/-- The calls `getElectricityData` makes, in the order it makes them. -/
inductive Event where
  | getOption (optionId : String)
  | fetchSchedulePage
  | extractScheduleString (page : Page)
  | extractSchedule (scheduleString : String)
  | extractStatusByGroup (groupSchedule : ScheduleTable) (group : Int)
  | updateOption (option : OptionRecord)
  | saveOption (option : OptionRecord)
deriving DecidableEq, Repr

/-- One run of `getElectricityData`: the calls made and what is returned. -/
structure Run where
  trace : List Event
  result : Except String String
deriving DecidableEq

/-- Lines 183-207 of `getElectricityData`: parse, resolve for group 3, write back.
`scheduleString` is the value the local variable holds when line 183 is reached and
`trace` the calls made so far. -/
def parseResolvePersist (w : World) (optionExists : Bool) (scheduleStringOption : OptionRecord)
    (scheduleString : String) (trace : List Event) : Run :=
  match extractSchedule w scheduleString with
  | .error err => ⟨trace ++ [.extractSchedule scheduleString], .error err⟩
  | .ok groupSchedule =>
    match extractStatusByGroup w.weekday w.hour groupSchedule 3 with
    | .error err =>
      ⟨trace ++ [.extractSchedule scheduleString, .extractStatusByGroup groupSchedule 3],
        .error err⟩
    | .ok status =>
      let scheduleStringOption : OptionRecord :=
        { scheduleStringOption with OptionValue := scheduleString }
      let write : Event :=
        if optionExists then .updateOption scheduleStringOption
        else .saveOption scheduleStringOption
      let err : Option String :=
        if optionExists then updateOption w scheduleStringOption
        else saveOption w scheduleStringOption
      let trace :=
        trace ++ [.extractSchedule scheduleString, .extractStatusByGroup groupSchedule 3, write]
      match err with
      | some e => ⟨trace, .error e⟩
      | none => ⟨trace, .ok status⟩

/-- The function `getElectricityData`.  The local `scheduleString` is declared at line 169
and assigned only inside the `if` of line 171, so when the cached value is not empty it
still holds `""` at line 183. -/
def getElectricityData (w : World) : Run :=
  let read := getOption w "0"
  let optionExists : Bool :=
    match read with
    | .error _ => false
    | .ok _ => true
  let scheduleStringOption : OptionRecord :=
    match read with
    | .error _ => ⟨"0", ""⟩
    | .ok option => option
  let trace : List Event := [.getOption "0"]
  if scheduleStringOption.OptionValue.length = 0 then
    match fetchSchedulePage w with
    | .error err => ⟨trace ++ [.fetchSchedulePage], .error err⟩
    | .ok page =>
      match extractScheduleString w.newDocument page with
      | .error err => ⟨trace ++ [.fetchSchedulePage, .extractScheduleString page], .error err⟩
      | .ok scheduleString =>
        parseResolvePersist w optionExists scheduleStringOption scheduleString
          (trace ++ [.fetchSchedulePage, .extractScheduleString page])
  else
    parseResolvePersist w optionExists scheduleStringOption "" trace

/-! ## The end-to-end scenario of the specification -/

/-- The raw schedule blob `{"3":{"1":{"5":"no"}}}`. -/
def sampleBlob : String := "\x7b\"3\":\x7b\"1\":\x7b\"5\":\"no\"\x7d\x7d\x7d"

/-- The table the blob decodes to. -/
def sampleTable : ScheduleTable := [("3", [("1", [("5", "no")])])]

/-- A carrier script: the marker and `{"data":{"3":{"1":{"5":"no"}}}}`. -/
def sampleScript : String := "DisconSchedule.fact = \x7b\"data\":" ++ sampleBlob ++ "\x7d"

/-- The bytes of some page that is not empty. -/
def samplePage : Page := [60, 104, 116, 109, 108, 62]

/-- The answers of `json.Unmarshal` the scenarios need: the blob decodes to its table, and
the empty input is rejected with the library's "unexpected end of JSON input". -/
def sampleUnmarshal (s : String) : Except String ScheduleTable :=
  if s = sampleBlob then .ok sampleTable
  else .error "unexpected end of JSON input"

/-- The world of the first scenario: no cached record, the page carries the blob, it is
Monday between 04:00 and 05:00 (day "1", hour "5"), every write succeeds. -/
def emptyCacheWorld : World where
  getItem := fun _ => ⟨none, none⟩
  unmarshalMap := fun item =>
    .ok ⟨(item.lookup "id").getD "", (item.lookup "optionValue").getD ""⟩
  marshalMap := fun o => .ok [("id", o.OptionId), ("optionValue", o.OptionValue)]
  putItem := fun _ => none
  updateItem := fun _ _ => none
  httpGet := fun _ => .ok samplePage
  readAll := fun body => .ok body
  newDocument := fun _ => .ok ["var a = 1;", sampleScript]
  jsonUnmarshal := sampleUnmarshal
  weekday := 1
  hour := 4

/-- The world of the second scenario: as the first, with the record `("0", blob)` stored. -/
def cachedWorld : World :=
  { emptyCacheWorld with
    getItem := fun _ => ⟨some [("id", "0"), ("optionValue", sampleBlob)], none⟩ }

/-- A world where the cache read itself fails: `GetItem` returns an error and no item;
the rest is as in the first scenario. -/
def readFailureWorld : World :=
  { emptyCacheWorld with
    getItem := fun _ => ⟨none, some "RequestError: send request failed"⟩ }

/-- The calls of a run that fetches the sample page and parses the blob, before the write. -/
def freshPrefix : List Event :=
  [.getOption "0", .fetchSchedulePage, .extractScheduleString samplePage,
    .extractSchedule sampleBlob, .extractStatusByGroup sampleTable 3]

/-! ## Facts about the error texts -/

/-- The text every lookup error of the Status Resolver starts with. -/
def lookupErrPrefix : String := "#extractStatusByGroup: there's no schedule for group "

theorem lookupErr_ne_wrongGroup (x : String) : lookupErrPrefix ++ x ≠ errWrongGroup := by
  intro h
  have h1 : (lookupErrPrefix ++ x).data.take 24 = errWrongGroup.data.take 24 := by rw [h]
  rw [String.data_append, List.take_append_of_le_length (by decide)] at h1
  revert h1
  decide

theorem errNoGroup_ne_wrongGroup (g : Int) : errNoGroup g ≠ errWrongGroup :=
  lookupErr_ne_wrongGroup (Itoa g)

theorem errNoDay_ne_wrongGroup (g : Int) (d : String) : errNoDay g d ≠ errWrongGroup := by
  have h := lookupErr_ne_wrongGroup (Itoa g ++ ", day " ++ d)
  simpa [errNoDay, lookupErrPrefix, String.append_assoc] using h

theorem errNoHour_ne_wrongGroup (g : Int) (d h : String) : errNoHour g d h ≠ errWrongGroup := by
  have h := lookupErr_ne_wrongGroup (Itoa g ++ ", day " ++ d ++ ", hour " ++ h)
  simpa [errNoHour, lookupErrPrefix, String.append_assoc] using h

theorem errNoGroup_ne_errNoDay (g : Int) (d : String) : errNoGroup g ≠ errNoDay g d := by
  intro h
  have h1 := congrArg String.length h
  simp only [errNoGroup, errNoDay, String.length_append] at h1
  have h2 : ", day ".length = 6 := by decide
  omega

theorem errNoGroup_ne_errNoHour (g : Int) (d hr : String) : errNoGroup g ≠ errNoHour g d hr := by
  intro h
  have h1 := congrArg String.length h
  simp only [errNoGroup, errNoHour, String.length_append] at h1
  have h2 : ", day ".length = 6 := by decide
  omega

theorem errNoDay_ne_errNoHour (g : Int) (d hr : String) : errNoDay g d ≠ errNoHour g d hr := by
  intro h
  have h1 := congrArg String.length h
  simp only [errNoDay, errNoHour, String.length_append] at h1
  have h2 : ", hour ".length = 7 := by decide
  omega

/-! ## Time Resolver -/

/-- C5: for a native weekday `w` in 0..6 (0 = Sunday) and a clock hour `h` in 0..23 the
time resolver returns the decimal text of `((w + 6) mod 7) + 1` and of `h + 1`:
Sunday gives "7", Monday "1", ..., Saturday "6"; the day lies in "1".."7", the hour in
"1".."24", and the `days` map has an entry for the weekday. -/
theorem getCurrentAdjustedDayAndHour_spec (w h : Int)
    (hw0 : 0 ≤ w) (hw6 : w ≤ 6) (hh0 : 0 ≤ h) (hh23 : h ≤ 23) :
    getCurrentAdjustedDayAndHour w h = (Itoa ((w + 6) % 7 + 1), Itoa (h + 1))
    ∧ (getCurrentAdjustedDayAndHour w h).1
        = (["7", "1", "2", "3", "4", "5", "6"] : List String).getD w.toNat ""
    ∧ (getCurrentAdjustedDayAndHour w h).1 ∈ (["1", "2", "3", "4", "5", "6", "7"] : List String)
    ∧ (getCurrentAdjustedDayAndHour w h).2 ∈
        (["1", "2", "3", "4", "5", "6", "7", "8", "9", "10", "11", "12", "13", "14", "15",
          "16", "17", "18", "19", "20", "21", "22", "23", "24"] : List String)
    ∧ (days.lookup w).isSome = true := by
  refine ⟨?_, ?_, ?_, ?_, ?_⟩
  · interval_cases w <;> rfl
  · interval_cases w <;> rfl
  · show Itoa (daysAt w + 1) ∈ _
    interval_cases w <;> decide
  · show Itoa (h + 1) ∈ _
    interval_cases h <;> decide
  · interval_cases w <;> rfl

theorem getCurrentAdjustedDayAndHour_spec_witness :
    getCurrentAdjustedDayAndHour 0 23 = (Itoa ((0 + 6) % 7 + 1), Itoa (23 + 1))
    ∧ (getCurrentAdjustedDayAndHour 0 23).1
        = (["7", "1", "2", "3", "4", "5", "6"] : List String).getD (0 : Int).toNat ""
    ∧ (getCurrentAdjustedDayAndHour 0 23).1 ∈ (["1", "2", "3", "4", "5", "6", "7"] : List String)
    ∧ (getCurrentAdjustedDayAndHour 0 23).2 ∈
        (["1", "2", "3", "4", "5", "6", "7", "8", "9", "10", "11", "12", "13", "14", "15",
          "16", "17", "18", "19", "20", "21", "22", "23", "24"] : List String)
    ∧ (days.lookup 0).isSome = true :=
  getCurrentAdjustedDayAndHour_spec 0 23 (by decide) (by decide) (by decide) (by decide)

/-! ## Status Resolver -/

theorem messages_distinct :
    yesMessage ≠ noMessage ∧ yesMessage ≠ maybeMessage ∧ noMessage ≠ maybeMessage := by
  decide

theorem extractStatusByGroup_found (weekday hour : Int) (groupSchedule : ScheduleTable)
    (g : Int) (weekSchedule : GoMap (GoMap String)) (daySchedule : GoMap String) (c : String)
    (hg : g = 1 ∨ g = 2 ∨ g = 3)
    (h1 : groupSchedule.lookup (Itoa g) = some weekSchedule)
    (h2 : weekSchedule.lookup (getCurrentAdjustedDayAndHour weekday hour).1 = some daySchedule)
    (h3 : daySchedule.lookup (getCurrentAdjustedDayAndHour weekday hour).2 = some c) :
    extractStatusByGroup weekday hour groupSchedule g
      = .ok (if c = "yes" then yesMessage else if c = "no" then noMessage else maybeMessage) := by
  have hr : ¬ (g < 1 ∨ g > 3) := by omega
  unfold extractStatusByGroup
  rw [if_neg hr]
  simp only [h1, h2, h3]
  split_ifs <;> rfl

/-- C1: for a group in {1,2,3} and a table that has a leaf code `c` at the group, the
resolved day and the resolved hour, `extractStatusByGroup` succeeds: with `yesMessage` when
`c` is "yes", with `noMessage` when `c` is "no", and with `maybeMessage` for every other
`c` ("maybe", the empty string, an unknown code); the three sentences differ. -/
theorem extractStatusByGroup_maps_code (weekday hour : Int) (groupSchedule : ScheduleTable)
    (g : Int) (weekSchedule : GoMap (GoMap String)) (daySchedule : GoMap String) (c : String)
    (hg : g = 1 ∨ g = 2 ∨ g = 3)
    (h1 : groupSchedule.lookup (Itoa g) = some weekSchedule)
    (h2 : weekSchedule.lookup (getCurrentAdjustedDayAndHour weekday hour).1 = some daySchedule)
    (h3 : daySchedule.lookup (getCurrentAdjustedDayAndHour weekday hour).2 = some c) :
    (c = "yes" → extractStatusByGroup weekday hour groupSchedule g = .ok yesMessage)
    ∧ (c = "no" → extractStatusByGroup weekday hour groupSchedule g = .ok noMessage)
    ∧ (c ≠ "yes" → c ≠ "no" →
        extractStatusByGroup weekday hour groupSchedule g = .ok maybeMessage)
    ∧ (∃ s, extractStatusByGroup weekday hour groupSchedule g = .ok s)
    ∧ yesMessage ≠ noMessage ∧ yesMessage ≠ maybeMessage ∧ noMessage ≠ maybeMessage := by
  have h := extractStatusByGroup_found weekday hour groupSchedule g weekSchedule daySchedule c
    hg h1 h2 h3
  refine ⟨?_, ?_, ?_, ⟨_, h⟩, messages_distinct⟩
  · intro hc
    rw [h, if_pos hc]
  · intro hc
    have hy : c ≠ "yes" := by rw [hc]; decide
    rw [h, if_neg hy, if_pos hc]
  · intro hy hn
    rw [h, if_neg hy, if_neg hn]

theorem extractStatusByGroup_maps_code_witness :
    ("" = "yes" → extractStatusByGroup 1 4 [("3", [("1", [("5", "")])])] 3 = .ok yesMessage)
    ∧ ("" = "no" → extractStatusByGroup 1 4 [("3", [("1", [("5", "")])])] 3 = .ok noMessage)
    ∧ ("" ≠ "yes" → "" ≠ "no" →
        extractStatusByGroup 1 4 [("3", [("1", [("5", "")])])] 3 = .ok maybeMessage)
    ∧ (∃ s, extractStatusByGroup 1 4 [("3", [("1", [("5", "")])])] 3 = .ok s)
    ∧ yesMessage ≠ noMessage ∧ yesMessage ≠ maybeMessage ∧ noMessage ≠ maybeMessage :=
  extractStatusByGroup_maps_code 1 4 [("3", [("1", [("5", "")])])] 3 [("1", [("5", "")])]
    [("5", "")] "" (by decide) (by decide) (by decide) (by decide)

/-- C3: `extractStatusByGroup` returns the wrong-group (validation) error exactly when the
group is below 1 or above 3, whatever the table holds (so also when the table has an entry
for the key "0" or "4"), and never for a group in {1,2,3}. -/
theorem extractStatusByGroup_validation_iff (weekday hour : Int) (groupSchedule : ScheduleTable)
    (group : Int) :
    extractStatusByGroup weekday hour groupSchedule group = .error errWrongGroup
      ↔ (group < 1 ∨ group > 3) := by
  constructor
  · intro h
    by_contra hn
    unfold extractStatusByGroup at h
    rw [if_neg hn] at h
    simp only at h
    split at h
    · exact errNoGroup_ne_wrongGroup _ (Except.error.inj h)
    · split at h
      · exact errNoDay_ne_wrongGroup _ _ (Except.error.inj h)
      · split at h
        · exact errNoHour_ne_wrongGroup _ _ _ (Except.error.inj h)
        · split_ifs at h
  · intro h
    unfold extractStatusByGroup
    rw [if_pos h]

/-- C4: for a group in {1,2,3} and any table (the empty one included) the resolver returns
an error exactly when a lookup level misses, and the error names the first missing level:
group, then day, then hour; with all three keys present it succeeds.  The three lookup
errors of a call differ from one another and from the validation error. -/
theorem extractStatusByGroup_lookup_errors (weekday hour : Int) (groupSchedule : ScheduleTable)
    (g : Int) (hg : g = 1 ∨ g = 2 ∨ g = 3) :
    (groupSchedule.lookup (Itoa g) = none →
      extractStatusByGroup weekday hour groupSchedule g = .error (errNoGroup g))
    ∧ (∀ weekSchedule, groupSchedule.lookup (Itoa g) = some weekSchedule →
        weekSchedule.lookup (getCurrentAdjustedDayAndHour weekday hour).1 = none →
        extractStatusByGroup weekday hour groupSchedule g
          = .error (errNoDay g (getCurrentAdjustedDayAndHour weekday hour).1))
    ∧ (∀ weekSchedule daySchedule, groupSchedule.lookup (Itoa g) = some weekSchedule →
        weekSchedule.lookup (getCurrentAdjustedDayAndHour weekday hour).1 = some daySchedule →
        daySchedule.lookup (getCurrentAdjustedDayAndHour weekday hour).2 = none →
        extractStatusByGroup weekday hour groupSchedule g
          = .error (errNoHour g (getCurrentAdjustedDayAndHour weekday hour).1
              (getCurrentAdjustedDayAndHour weekday hour).2))
    ∧ (∀ weekSchedule daySchedule c, groupSchedule.lookup (Itoa g) = some weekSchedule →
        weekSchedule.lookup (getCurrentAdjustedDayAndHour weekday hour).1 = some daySchedule →
        daySchedule.lookup (getCurrentAdjustedDayAndHour weekday hour).2 = some c →
        ∃ s, extractStatusByGroup weekday hour groupSchedule g = .ok s)
    ∧ ((∃ e, extractStatusByGroup weekday hour groupSchedule g = .error e) ↔
        ((groupSchedule.lookup (Itoa g)).bind fun weekSchedule =>
          (weekSchedule.lookup (getCurrentAdjustedDayAndHour weekday hour).1).bind
            fun daySchedule =>
              daySchedule.lookup (getCurrentAdjustedDayAndHour weekday hour).2) = none)
    ∧ (errNoGroup g ≠ errNoDay g (getCurrentAdjustedDayAndHour weekday hour).1
        ∧ errNoGroup g ≠ errNoHour g (getCurrentAdjustedDayAndHour weekday hour).1
            (getCurrentAdjustedDayAndHour weekday hour).2
        ∧ errNoDay g (getCurrentAdjustedDayAndHour weekday hour).1
            ≠ errNoHour g (getCurrentAdjustedDayAndHour weekday hour).1
                (getCurrentAdjustedDayAndHour weekday hour).2
        ∧ errNoGroup g ≠ errWrongGroup
        ∧ errNoDay g (getCurrentAdjustedDayAndHour weekday hour).1 ≠ errWrongGroup
        ∧ errNoHour g (getCurrentAdjustedDayAndHour weekday hour).1
            (getCurrentAdjustedDayAndHour weekday hour).2 ≠ errWrongGroup) := by
  have hr : ¬ (g < 1 ∨ g > 3) := by omega
  refine ⟨?_, ?_, ?_, ?_, ?_, ?_⟩
  · intro h1
    unfold extractStatusByGroup
    rw [if_neg hr]
    simp only [h1]
  · intro weekSchedule h1 h2
    unfold extractStatusByGroup
    rw [if_neg hr]
    simp only [h1, h2]
  · intro weekSchedule daySchedule h1 h2 h3
    unfold extractStatusByGroup
    rw [if_neg hr]
    simp only [h1, h2, h3]
  · intro weekSchedule daySchedule c h1 h2 h3
    exact ⟨_, extractStatusByGroup_found weekday hour groupSchedule g weekSchedule daySchedule c
      hg h1 h2 h3⟩
  · unfold extractStatusByGroup
    rw [if_neg hr]
    simp only
    cases h1 : groupSchedule.lookup (Itoa g) with
    | none => simp
    | some weekSchedule =>
      cases h2 : weekSchedule.lookup (getCurrentAdjustedDayAndHour weekday hour).1 with
      | none => simp [h2]
      | some daySchedule =>
        cases h3 : daySchedule.lookup (getCurrentAdjustedDayAndHour weekday hour).2 with
        | none => simp [h2, h3]
        | some c =>
          simp only [Option.some_bind, h2, h3]
          constructor
          · rintro ⟨e, he⟩
            split_ifs at he
          · intro hc
            cases hc
  · exact ⟨errNoGroup_ne_errNoDay _ _, errNoGroup_ne_errNoHour _ _ _,
      errNoDay_ne_errNoHour _ _ _, errNoGroup_ne_wrongGroup _, errNoDay_ne_wrongGroup _ _,
      errNoHour_ne_wrongGroup _ _ _⟩

/-! ## Schedule Extractor -/

theorem scanScripts_step_none (post : List String) (acc : String)
    (hpost : ∀ t ∈ post, Contains t "DisconSchedule" = false) :
    post.foldl (fun scheduleString cont =>
      if Contains cont "DisconSchedule" then cont else scheduleString) acc = acc := by
  induction post generalizing acc with
  | nil => rfl
  | cons t ts ih =>
    have ht : Contains t "DisconSchedule" = false := hpost t (List.mem_cons_self _ _)
    rw [List.foldl_cons, ht]
    exact ih acc (fun u hu => hpost u (List.mem_cons_of_mem _ hu))

theorem scanScripts_last (pre post : List String) (s : String)
    (hs : Contains s "DisconSchedule" = true)
    (hpost : ∀ t ∈ post, Contains t "DisconSchedule" = false) :
    scanScripts (pre ++ s :: post) = s := by
  unfold scanScripts
  rw [List.foldl_append, List.foldl_cons, hs]
  exact scanScripts_step_none post s hpost

theorem ne_empty_of_marker (s : String) (hs : Contains s "DisconSchedule" = true) : s ≠ "" := by
  intro h
  rw [h] at hs
  revert hs
  decide

theorem extractScheduleString_carrier (newDocument : Page → Except String (List String))
    (page : Page) (pre post : List String) (s : String)
    (hpage : page ≠ [])
    (hdoc : newDocument page = .ok (pre ++ s :: post))
    (hs : Contains s "DisconSchedule" = true)
    (hpost : ∀ t ∈ post, Contains t "DisconSchedule" = false) :
    extractScheduleString newDocument page = .ok (matchAndStrip s) := by
  have hlen : ¬ page.length = 0 := by
    intro h
    exact hpage (List.length_eq_zero.mp h)
  unfold extractScheduleString
  rw [if_neg hlen, hdoc]
  simp only [scanScripts_last pre post s hs hpost]
  rw [if_neg (ne_empty_of_marker s hs)]

theorem findStringL_cons (c : Char) (cs : List Char) :
    findStringL (c :: cs) =
      if patternLiteral.isPrefixOf (c :: cs) then
        patternLiteral ++ (((c :: cs).drop patternLiteral.length).takeWhile (fun x => x != '\n'))
      else findStringL cs := by
  rw [findStringL]

theorem findStringL_no_match (l : List Char) (h : containsL l patternLiteral = false) :
    findStringL l = [] := by
  induction l with
  | nil => rfl
  | cons c cs ih =>
    unfold containsL at h
    rw [Bool.or_eq_false_iff] at h
    rw [findStringL_cons, if_neg (by rw [h.1]; decide)]
    exact ih h.2

theorem matchAndStrip_no_match (s : String) (h : Contains s "\"data\":\x7b" = false) :
    matchAndStrip s = "" := by
  have hf : FindString s = "" := by
    unfold FindString
    rw [findStringL_no_match s.data h]
  unfold matchAndStrip
  rw [hf]
  decide

theorem findStringL_skip (p rest : List Char)
    (h : ∀ i, i < p.length → patternLiteral.isPrefixOf ((p ++ rest).drop i) = false) :
    findStringL (p ++ rest) = findStringL rest := by
  induction p with
  | nil => rfl
  | cons c cs ih =>
    have h0 : patternLiteral.isPrefixOf (c :: (cs ++ rest)) = false := h 0 (by simp)
    rw [List.cons_append, findStringL_cons, if_neg (by rw [h0]; decide)]
    apply ih
    intro i hi
    have := h (i + 1) (by simp; omega)
    simpa using this

theorem takeWhile_line (b r : List Char) (hnl : '\n' ∉ b)
    (hr : r = [] ∨ r.head? = some '\n') :
    (b ++ '\x7d' :: r).takeWhile (fun x => x != '\n') = b ++ ['\x7d'] := by
  induction b with
  | nil =>
    rcases hr with hr | hr
    · subst hr
      decide
    · cases r with
      | nil => simp at hr
      | cons x xs =>
        simp only [List.head?_cons, Option.some.injEq] at hr
        subst hr
        simp
  | cons c cs ih =>
    have hc : c ≠ '\n' := fun hc => hnl (by rw [hc]; exact List.mem_cons_self _ _)
    have hcs : '\n' ∉ cs := fun hm => hnl (List.mem_cons_of_mem _ hm)
    rw [List.cons_append, List.takeWhile_cons, if_pos (by simpa using hc), ih hcs]
    rfl

theorem findStringL_at (t : List Char) :
    findStringL (patternLiteral ++ t)
      = patternLiteral ++ t.takeWhile (fun x => x != '\n') := by
  have h : patternLiteral ++ t = '"' :: ("data\":\x7b".data ++ t) := rfl
  have hp : patternLiteral.isPrefixOf (patternLiteral ++ t) = true :=
    List.isPrefixOf_iff_prefix.mpr (List.prefix_append _ _)
  rw [h, findStringL_cons, ← h, if_pos hp, List.drop_left]

theorem TrimPrefix_append (a b : String) : TrimPrefix (a ++ b) a = b := by
  have hp : a.data.isPrefixOf (a ++ b).data = true := by
    rw [String.data_append]
    exact List.isPrefixOf_iff_prefix.mpr (List.prefix_append _ _)
  unfold TrimPrefix
  rw [if_pos hp, String.data_append, List.drop_left]

theorem TrimSuffix_append (a b : String) : TrimSuffix (a ++ b) b = a := by
  have hp : b.data.isSuffixOf (a ++ b).data = true := by
    rw [String.data_append]
    exact List.isSuffixOf_iff_suffix.mpr (List.suffix_append _ _)
  unfold TrimSuffix
  rw [if_pos hp, String.data_append, List.length_append, Nat.add_sub_cancel, List.take_left]

theorem FindString_line (P B R : String)
    (hB : B.data.head? = some '\x7b')
    (hnl : '\n' ∉ B.data)
    (hfirst : ∀ i, i < P.data.length →
      patternLiteral.isPrefixOf ((P ++ "\"data\":" ++ B ++ "\x7d" ++ R).data.drop i) = false)
    (hR : R = "" ∨ R.data.head? = some '\n') :
    FindString (P ++ "\"data\":" ++ B ++ "\x7d" ++ R) = "\"data\":" ++ (B ++ "\x7d") := by
  obtain ⟨b, hb⟩ : ∃ b, B.data = '\x7b' :: b := by
    cases hd : B.data with
    | nil => rw [hd] at hB; simp at hB
    | cons x xs =>
      rw [hd] at hB
      simp only [List.head?_cons, Option.some.injEq] at hB
      exact ⟨xs, by rw [hB]⟩
  have hnl' : '\n' ∉ b := fun hm => hnl (by rw [hb]; exact List.mem_cons_of_mem _ hm)
  have hR' : R.data = [] ∨ R.data.head? = some '\n' := by
    rcases hR with h | h
    · left; rw [h]
    · right; exact h
  have hdata : (P ++ "\"data\":" ++ B ++ "\x7d" ++ R).data
      = P.data ++ (patternLiteral ++ (b ++ '\x7d' :: R.data)) := by
    simp only [String.data_append, hb, List.append_assoc]
    rfl
  rw [hdata] at hfirst
  apply String.ext
  show findStringL (P ++ "\"data\":" ++ B ++ "\x7d" ++ R).data = _
  rw [hdata, findStringL_skip _ _ hfirst, findStringL_at, takeWhile_line b R.data hnl' hR']
  simp only [String.data_append, hb]
  rfl

/-- C10: for a carrier script `P ++ "\"data\":" ++ B ++ "}" ++ R` in which `B` starts with
an opening brace and has no newline, the key literal with its brace occurs first right
after `P`, and `R` is empty or starts with a newline, the match runs from the key literal
to the end of that line and the strip step returns exactly `B`: the prefix is removed
once and one closing brace is removed. -/
theorem matchAndStrip_line (P B R : String)
    (hB : B.data.head? = some '\x7b')
    (hnl : '\n' ∉ B.data)
    (hfirst : ∀ i, i < P.data.length →
      patternLiteral.isPrefixOf ((P ++ "\"data\":" ++ B ++ "\x7d" ++ R).data.drop i) = false)
    (hR : R = "" ∨ R.data.head? = some '\n') :
    FindString (P ++ "\"data\":" ++ B ++ "\x7d" ++ R) = "\"data\":" ++ B ++ "\x7d"
    ∧ matchAndStrip (P ++ "\"data\":" ++ B ++ "\x7d" ++ R) = B := by
  have hf := FindString_line P B R hB hnl hfirst hR
  refine ⟨by rw [hf, String.append_assoc], ?_⟩
  unfold matchAndStrip
  rw [hf]
  show TrimSuffix (TrimPrefix ("\"data\":" ++ (B ++ "\x7d")) "\"data\":") "\x7d" = B
  rw [TrimPrefix_append, TrimSuffix_append]

theorem matchAndStrip_line_witness :
    FindString ("\x7b" ++ "\"data\":" ++ sampleBlob ++ "\x7d" ++ "")
        = "\"data\":" ++ sampleBlob ++ "\x7d"
    ∧ matchAndStrip ("\x7b" ++ "\"data\":" ++ sampleBlob ++ "\x7d" ++ "") = sampleBlob :=
  matchAndStrip_line "\x7b" sampleBlob "" (by decide) (by decide) (by decide) (by decide)

/-- C7: on a page that is not empty, when the script texts in document order are
`pre`, then `s`, then `post`, with the marker in `s` and in no script of `post` (so `s` is
the last script holding the marker, whatever `pre` holds), `extractScheduleString` returns
the pattern-match-and-strip of `s` alone. -/
theorem extractScheduleString_last_marker (newDocument : Page → Except String (List String))
    (page : Page) (pre post : List String) (s : String)
    (hpage : page ≠ [])
    (hdoc : newDocument page = .ok (pre ++ s :: post))
    (hs : Contains s "DisconSchedule" = true)
    (hpost : ∀ t ∈ post, Contains t "DisconSchedule" = false) :
    extractScheduleString newDocument page = .ok (matchAndStrip s) :=
  extractScheduleString_carrier newDocument page pre post s hpage hdoc hs hpost

theorem extractScheduleString_last_marker_witness :
    extractScheduleString
        (fun _ => .ok (["DisconSchedule.old = \x7b\"data\":\x7b\"3\":\x7b\x7d\x7d\x7d", "x = 1"]
          ++ sampleScript :: ["y = 2"]))
        samplePage
      = .ok (matchAndStrip sampleScript) :=
  extractScheduleString_last_marker _ samplePage
    ["DisconSchedule.old = \x7b\"data\":\x7b\"3\":\x7b\x7d\x7d\x7d", "x = 1"] ["y = 2"]
    sampleScript (by decide) rfl (by decide) (by decide)

/-- A page whose only marker script has no match for the pattern: the extractor returns
the empty string and no error. -/
theorem extractScheduleString_no_match_passes :
    samplePage ≠ []
    ∧ Contains "DisconSchedule = 1" "DisconSchedule" = true
    ∧ Contains "DisconSchedule = 1" "\"data\":\x7b" = false
    ∧ extractScheduleString (fun _ => .ok ["DisconSchedule = 1"]) samplePage = .ok ""
    ∧ ¬ ∃ e, extractScheduleString (fun _ => .ok ["DisconSchedule = 1"]) samplePage
        = .error e := by
  refine ⟨by decide, by decide, by decide, by decide, ?_⟩
  rintro ⟨e, he⟩
  have h : extractScheduleString (fun _ => .ok ["DisconSchedule = 1"]) samplePage = .ok "" := by
    decide
  rw [h] at he
  cases he

/-- C8 as amended: on a page that is not empty whose carrier script (the last script
holding the marker) has no occurrence of the key literal followed by an opening brace,
`extractScheduleString` does not fail: it returns the empty string. -/
theorem extractScheduleString_no_match_empty
    (newDocument : Page → Except String (List String))
    (page : Page) (pre post : List String) (s : String)
    (hpage : page ≠ [])
    (hdoc : newDocument page = .ok (pre ++ s :: post))
    (hs : Contains s "DisconSchedule" = true)
    (hpost : ∀ t ∈ post, Contains t "DisconSchedule" = false)
    (hno : Contains s "\"data\":\x7b" = false) :
    extractScheduleString newDocument page = .ok "" := by
  rw [extractScheduleString_carrier newDocument page pre post s hpage hdoc hs hpost,
    matchAndStrip_no_match s hno]

theorem extractScheduleString_no_match_empty_witness :
    extractScheduleString (fun _ => .ok ([] ++ "DisconSchedule = 1" :: ["y = 2"])) samplePage
      = .ok "" :=
  extractScheduleString_no_match_empty _ samplePage [] ["y = 2"] "DisconSchedule = 1"
    (by decide) rfl (by decide) (by decide) (by decide)

/-! ## Schedule Cache -/

theorem length_eq_zero_iff (s : String) : s.length = 0 ↔ s = "" := by
  constructor
  · intro h
    apply String.ext
    exact List.length_eq_zero.mp h
  · intro h
    rw [h]
    rfl

theorem parseResolvePersist_trace (w : World) (optionExists : Bool) (o : OptionRecord)
    (str : String) (tr : List Event) (ev : Event)
    (h : ev ∈ (parseResolvePersist w optionExists o str tr).trace) :
    ev ∈ tr ∨ ev = .extractSchedule str ∨ (∃ table, ev = .extractStatusByGroup table 3)
      ∨ (optionExists = true ∧ ev = .updateOption ⟨o.OptionId, str⟩)
      ∨ (optionExists = false ∧ ev = .saveOption ⟨o.OptionId, str⟩) := by
  unfold parseResolvePersist extractSchedule at h
  cases hj : w.jsonUnmarshal str with
  | error e =>
    simp only [hj, List.mem_append, List.mem_singleton] at h
    tauto
  | ok table =>
    simp only [hj] at h
    cases hs : extractStatusByGroup w.weekday w.hour table 3 with
    | error e =>
      simp only [hs, List.mem_append, List.mem_cons, List.mem_singleton, List.not_mem_nil,
        or_false] at h
      rcases h with h | h | h
      · exact Or.inl h
      · exact Or.inr (Or.inl h)
      · exact Or.inr (Or.inr (Or.inl ⟨table, h⟩))
    | ok st =>
      simp only [hs] at h
      have h' : ev ∈ tr ++ [.extractSchedule str, .extractStatusByGroup table 3,
          if optionExists then .updateOption ⟨o.OptionId, str⟩
          else .saveOption ⟨o.OptionId, str⟩] := by
        split at h <;> exact h
      simp only [List.mem_append, List.mem_cons, List.mem_singleton, List.not_mem_nil,
        or_false] at h'
      rcases h' with h' | h' | h' | h'
      · exact Or.inl h'
      · exact Or.inr (Or.inl h')
      · exact Or.inr (Or.inr (Or.inl ⟨table, h'⟩))
      · cases optionExists with
        | true => exact Or.inr (Or.inr (Or.inr (Or.inl ⟨rfl, by simpa using h'⟩)))
        | false => exact Or.inr (Or.inr (Or.inr (Or.inr ⟨rfl, by simpa using h'⟩)))

theorem getElectricityData_cache_hit (w : World) (o : OptionRecord)
    (h : getOption w "0" = .ok o) (hv : o.OptionValue ≠ "") :
    getElectricityData w = parseResolvePersist w true o "" [.getOption "0"] := by
  have hl : ¬ o.OptionValue.length = 0 := fun hl => hv ((length_eq_zero_iff _).mp hl)
  unfold getElectricityData
  simp only [h]
  rw [if_neg hl]

theorem getElectricityData_cache_miss (w : World) (e : String)
    (h : getOption w "0" = .error e) :
    getElectricityData w =
      match fetchSchedulePage w with
      | .error err => ⟨[.getOption "0", .fetchSchedulePage], .error err⟩
      | .ok page =>
        match extractScheduleString w.newDocument page with
        | .error err =>
          ⟨[.getOption "0", .fetchSchedulePage, .extractScheduleString page], .error err⟩
        | .ok scheduleString =>
          parseResolvePersist w false ⟨"0", ""⟩ scheduleString
            [.getOption "0", .fetchSchedulePage, .extractScheduleString page] := by
  unfold getElectricityData
  simp only [h]
  rfl

/-- On a cache hit with a value that is not empty nothing is fetched, the only string
handed to the parser is the empty one, and no write can carry the cached value. -/
theorem getElectricityData_cache_hit_trace (w : World) (o : OptionRecord)
    (h : getOption w "0" = .ok o) (hv : o.OptionValue ≠ "") :
    Event.fetchSchedulePage ∉ (getElectricityData w).trace
    ∧ (∀ s, Event.extractSchedule s ∈ (getElectricityData w).trace → s = "")
    ∧ (∀ o', Event.updateOption o' ∈ (getElectricityData w).trace → o'.OptionValue = "")
    ∧ (∀ o', Event.saveOption o' ∉ (getElectricityData w).trace)
    ∧ (∀ e, w.jsonUnmarshal "" = .error e →
        getElectricityData w = ⟨[.getOption "0", .extractSchedule ""], .error e⟩) := by
  rw [getElectricityData_cache_hit w o h hv]
  refine ⟨?_, ?_, ?_, ?_, ?_⟩
  · intro hm
    have := parseResolvePersist_trace _ _ _ _ _ _ hm
    simp at this
  · intro s hm
    have := parseResolvePersist_trace _ _ _ _ _ _ hm
    simpa using this
  · intro o' hm
    have := parseResolvePersist_trace _ _ _ _ _ _ hm
    simp only [List.mem_singleton, reduceCtorEq, false_or, exists_false, Event.updateOption.injEq,
      true_and, Bool.true_eq_false, false_and, or_false] at this
    rw [this]
  · intro o' hm
    have := parseResolvePersist_trace _ _ _ _ _ _ hm
    simp at this
  · intro e he
    unfold parseResolvePersist extractSchedule
    simp only [he]
    rfl

theorem extractStatusByGroup_lookup_errors_witness :
    extractStatusByGroup 1 4 [] 3 = .error (errNoGroup 3)
    ∧ extractStatusByGroup 1 4 [("3", [("2", [])])] 3
        = .error (errNoDay 3 (getCurrentAdjustedDayAndHour 1 4).1)
    ∧ extractStatusByGroup 1 4 [("3", [("1", [("4", "yes")])])] 3
        = .error (errNoHour 3 (getCurrentAdjustedDayAndHour 1 4).1
            (getCurrentAdjustedDayAndHour 1 4).2)
    ∧ (∃ s, extractStatusByGroup 1 4 sampleTable 3 = .ok s) :=
  ⟨(extractStatusByGroup_lookup_errors 1 4 [] 3 (by decide)).1 (by decide),
    (extractStatusByGroup_lookup_errors 1 4 [("3", [("2", [])])] 3 (by decide)).2.1
      [("2", [])] (by decide) (by decide),
    (extractStatusByGroup_lookup_errors 1 4 [("3", [("1", [("4", "yes")])])] 3
      (by decide)).2.2.1 [("1", [("4", "yes")])] [("4", "yes")] (by decide) (by decide)
      (by decide),
    (extractStatusByGroup_lookup_errors 1 4 sampleTable 3 (by decide)).2.2.2.1
      [("1", [("5", "no")])] [("5", "no")] "no" (by decide) (by decide) (by decide)⟩

/-- C2, the code at the failing input: with the record ("0", blob) cached, the fetcher is
not called, but the string handed to the parser is the empty one and not the cached blob,
so the run ends in the parser's error with no write, although the blob itself parses and
resolves to the off sentence. -/
theorem getElectricityData_cached_value_not_parsed :
    getOption cachedWorld "0" = .ok ⟨"0", sampleBlob⟩
    ∧ getElectricityData cachedWorld
        = ⟨[.getOption "0", .extractSchedule ""], .error "unexpected end of JSON input"⟩
    ∧ Event.extractSchedule sampleBlob ∉ (getElectricityData cachedWorld).trace
    ∧ extractSchedule cachedWorld sampleBlob = .ok sampleTable
    ∧ extractStatusByGroup cachedWorld.weekday cachedWorld.hour sampleTable 3
        = .ok noMessage :=
  ⟨by decide, by decide, by decide, rfl, by decide⟩

/-- A failed `GetItem`: the run goes on to fetch, parse, resolve and insert, and returns
the sentence. -/
theorem getElectricityData_read_failure_not_propagated :
    (readFailureWorld.getItem "0").err = some "RequestError: send request failed"
    ∧ getElectricityData readFailureWorld
        = ⟨freshPrefix ++ [.saveOption ⟨"0", sampleBlob⟩], .ok noMessage⟩
    ∧ Event.fetchSchedulePage ∈ (getElectricityData readFailureWorld).trace
    ∧ ¬ ∃ e, (getElectricityData readFailureWorld).result = .error e := by
  have h : getElectricityData readFailureWorld
      = ⟨freshPrefix ++ [.saveOption ⟨"0", sampleBlob⟩], .ok noMessage⟩ := by decide
  refine ⟨by decide, h, by decide, ?_⟩
  rintro ⟨e, he⟩
  rw [h] at he
  cases he

/-- C9 as amended: no failure of the cache read propagates.  `getOption` never looks at
the error of `GetItem`, so a run is the same as the run where `GetItem` reports no error;
and whenever `getOption` returns an error, whatever its cause, `getElectricityData` goes on
as for a missing record: it fetches next, never updates, and when fetch, extraction,
parse, resolution and insert succeed it returns the sentence after inserting the record
under "0". -/
theorem getElectricityData_read_error_recovered (w : World) :
    getElectricityData w
      = getElectricityData { w with getItem := fun k => ⟨(w.getItem k).Item, none⟩ }
    ∧ (∀ e, getOption w "0" = .error e →
        (getElectricityData w).trace.take 2 = [.getOption "0", .fetchSchedulePage]
        ∧ (∀ o, Event.updateOption o ∉ (getElectricityData w).trace)
        ∧ (∀ page str table status, fetchSchedulePage w = .ok page →
            extractScheduleString w.newDocument page = .ok str →
            w.jsonUnmarshal str = .ok table →
            extractStatusByGroup w.weekday w.hour table 3 = .ok status →
            saveOption w ⟨"0", str⟩ = none →
            getElectricityData w
              = ⟨[.getOption "0", .fetchSchedulePage, .extractScheduleString page,
                  .extractSchedule str, .extractStatusByGroup table 3,
                  .saveOption ⟨"0", str⟩], .ok status⟩)) := by
  refine ⟨rfl, ?_⟩
  intro e hread
  rw [getElectricityData_cache_miss w e hread]
  refine ⟨?_, ?_, ?_⟩
  · cases hf : fetchSchedulePage w with
    | error err => rfl
    | ok page =>
      simp only
      cases hx : extractScheduleString w.newDocument page with
      | error err => rfl
      | ok str =>
        simp only
        unfold parseResolvePersist
        cases extractSchedule w str with
        | error err => rfl
        | ok table =>
          simp only
          cases extractStatusByGroup w.weekday w.hour table 3 with
          | error err => rfl
          | ok st =>
            simp only
            split <;> rfl
  · intro o ho
    cases hf : fetchSchedulePage w with
    | error err =>
      rw [hf] at ho
      simp at ho
    | ok page =>
      rw [hf] at ho
      simp only at ho
      cases hx : extractScheduleString w.newDocument page with
      | error err =>
        rw [hx] at ho
        simp at ho
      | ok str =>
        rw [hx] at ho
        simp only at ho
        have := parseResolvePersist_trace _ _ _ _ _ _ ho
        simp at this
  · intro page str table status hf hx hj hs hsave
    simp only [hf, hx]
    unfold parseResolvePersist extractSchedule
    simp only [hj, hs]
    simp [hsave]

theorem getElectricityData_read_error_recovered_witness :
    getElectricityData readFailureWorld
      = getElectricityData
          { readFailureWorld with getItem := fun k => ⟨(readFailureWorld.getItem k).Item, none⟩ }
    ∧ (getElectricityData readFailureWorld).trace.take 2
        = [.getOption "0", .fetchSchedulePage]
    ∧ (∀ o, Event.updateOption o ∉ (getElectricityData readFailureWorld).trace)
    ∧ getElectricityData readFailureWorld
        = ⟨[.getOption "0", .fetchSchedulePage, .extractScheduleString samplePage,
            .extractSchedule sampleBlob, .extractStatusByGroup sampleTable 3,
            .saveOption ⟨"0", sampleBlob⟩], .ok noMessage⟩ :=
  ⟨(getElectricityData_read_error_recovered readFailureWorld).1,
    ((getElectricityData_read_error_recovered readFailureWorld).2 errItemNil (by decide)).1,
    ((getElectricityData_read_error_recovered readFailureWorld).2 errItemNil (by decide)).2.1,
    ((getElectricityData_read_error_recovered readFailureWorld).2 errItemNil (by decide)).2.2
      samplePage sampleBlob sampleTable noMessage (by decide) (by decide) rfl
      (by decide) (by decide)⟩

end Altaiir
